import Mathlib

/-!
Formal model of the trivia backend question endpoints
(`backend/flaskr/__init__.py`): pagination, search, listing by category,
deletion and quiz-question selection, with theorems about their behaviour.
Storage is modelled as the list of rows the ORM would return; each endpoint
becomes a pure function of that list and the request data, returning either
a response value or the HTTP error code the handler aborts with.
-/

namespace Trivia

/-- Page size constant from the source: `QUESTIONS_PER_PAGE = 10`. -/
def QUESTIONS_PER_PAGE : Nat := 10

/-- A stored question row. Modelled from the spec: the ORM model file
(`models.py`) is not among the sources; the spec describes a Question as
identifier, question text, answer text, category reference and difficulty. -/
structure Question where
  id : Nat
  question : String
  answer : String
  category : Nat
  difficulty : Nat
deriving DecidableEq, Repr

/-- A category row. Modelled from the spec: identifier plus type label. -/
structure Category where
  id : Nat
  type : String
deriving DecidableEq, Repr

/-- The externally visible projection of a question. Modelled from the spec:
`Question.format` lives in the absent `models.py`; the spec fixes the shape
as id, question, answer, difficulty, category. -/
structure FormattedQuestion where
  id : Nat
  question : String
  answer : String
  category : Nat
  difficulty : Nat
deriving DecidableEq, Repr

/-- Modelled from the spec: the formatted question carries exactly the five
fields of the stored row. -/
def Question.format (q : Question) : FormattedQuestion :=
  ⟨q.id, q.question, q.answer, q.category, q.difficulty⟩

/-- Comparison used by `order_by(Question.id)`. -/
def qle (a b : Question) : Prop := a.id ≤ b.id

instance : DecidableRel qle := fun a b => Nat.decLe a.id b.id

instance : IsTotal Question qle := ⟨fun a b => Nat.le_total a.id b.id⟩

instance : IsTrans Question qle := ⟨fun _ _ _ => Nat.le_trans⟩

/-- The rows of `Question.query.order_by(Question.id).all()`: the stored
questions sorted by identifier ascending. -/
def sortById (qs : List Question) : List Question := List.insertionSort qle qs

/-- Comparison used by `order_by(Category.id)`. -/
def cle (a b : Category) : Prop := a.id ≤ b.id

instance : DecidableRel cle := fun a b => Nat.decLe a.id b.id

instance : IsTotal Category cle := ⟨fun a b => Nat.le_total a.id b.id⟩

instance : IsTrans Category cle := ⟨fun _ _ _ => Nat.le_trans⟩

/-- The id-to-type dictionary the endpoints build from
`Category.query.order_by(Category.id).all()` (a Python dict in id order). -/
def catDict (cats : List Category) : List (Nat × String) :=
  (List.insertionSort cle cats).map (fun c => (c.id, c.type))

/-- The source function `paginate_questions(selection, request)`: format every
row of the selection, then return the slice `[start, end)` with
`start = (page - 1) * QUESTIONS_PER_PAGE` and `end = start + QUESTIONS_PER_PAGE`.
A call without a request object uses page 1, as does a missing or non-numeric
page parameter. -/
def paginate_questions (selection : List Question) (page : Nat) :
    List FormattedQuestion :=
  (((selection.map Question.format)).drop ((page - 1) * QUESTIONS_PER_PAGE)).take
    QUESTIONS_PER_PAGE

/-- Response shape shared by the two question-listing endpoints. -/
structure QuestionsResponse where
  questions : List FormattedQuestion
  total_questions : Nat
  current_category : Option Nat
  categories : List (Nat × String)
deriving DecidableEq, Repr

/-- GET `/questions` (source function `get_questions`): fetch all questions
ordered by id, paginate at the requested page, and abort 404 when the page is
empty; otherwise answer with the page, the full corpus size, a null current
category and the category dictionary. -/
def get_questions (qs : List Question) (cats : List Category) (page : Nat) :
    Except Nat QuestionsResponse :=
  let questions := sortById qs
  let formatted := paginate_questions questions page
  if formatted.length = 0 then Except.error 404
  else Except.ok ⟨formatted, questions.length, none, catDict cats⟩

/-- DELETE `/questions/(id)` (source function `delete_question`): `one_or_none`
over the rows with the given id. A missing row aborts 404 inside the `try`
block, which the bare `except` converts to 422; several rows raise
MultipleResultsFound, caught the same way; exactly one row is deleted and the
id echoed back. -/
def delete_question (qs : List Question) (question_id : Nat) :
    Except Nat (List Question × Nat) :=
  match qs.filter (fun q => q.id == question_id) with
  | [] => Except.error 422
  | [_] => Except.ok (qs.filter (fun q => q.id != question_id), question_id)
  | _ :: _ :: _ => Except.error 422

/-- Lower-cased character sequence of a string, for case-insensitive matching. -/
def lowerChars (s : String) : List Char := s.toList.map Char.toLower

/-- One element of a parsed SQL LIKE pattern: the percent wildcard for any
character sequence, the underscore wildcard for exactly one character, or a
literal character. -/
inductive LikeTok where
  | anySeq
  | anyOne
  | lit (c : Char)
deriving DecidableEq, Repr

/-- Parse a SQL LIKE pattern: percent and underscore are wildcards, and the
default PostgreSQL escape character backslash makes the following character
literal. A pattern ending in a lone backslash is an error in PostgreSQL; the
patterns built by the search endpoint always end in a percent sign, so that
case is unreachable here and parsed as a literal backslash. -/
def likeTokens : List Char → List LikeTok
  | [] => []
  | ['\\'] => [LikeTok.lit '\\']
  | '\\' :: d :: rest => LikeTok.lit d :: likeTokens rest
  | '%' :: rest => LikeTok.anySeq :: likeTokens rest
  | '_' :: rest => LikeTok.anyOne :: likeTokens rest
  | c :: rest => LikeTok.lit c :: likeTokens rest

/-- SQL LIKE matching of a parsed pattern against a character sequence: the
percent wildcard consumes any amount of text by trying every suffix, the
underscore wildcard exactly one character, a literal exactly itself. -/
def likeMatch : List LikeTok → List Char → Bool
  | [], s => s.isEmpty
  | LikeTok.anySeq :: ts, s => s.tails.any (fun suf => likeMatch ts suf)
  | LikeTok.anyOne :: _, [] => false
  | LikeTok.anyOne :: ts, _ :: ds => likeMatch ts ds
  | LikeTok.lit _ :: _, [] => false
  | LikeTok.lit c :: ts, d :: ds => c == d && likeMatch ts ds

/-- The ORM predicate `column.ilike(pat)`: SQL LIKE matching made
case-insensitive by lower-casing pattern and text alike. -/
def ilike (pat text : String) : Bool :=
  likeMatch (likeTokens (lowerChars pat)) (lowerChars text)

/-- Substring test on character lists. -/
def hasSub (pat : List Char) : List Char → Bool
  | [] => pat.isEmpty
  | c :: rest => pat.isPrefixOf (c :: rest) || hasSub pat rest

/-- Match predicate as the spec words it: the term contained in the question
text as a case-insensitive substring. Stated from the spec's words for
comparison with the ilike predicate of the source; the two agree exactly on
terms free of wildcard and escape characters. -/
def specSubstringMatch (term text : String) : Bool :=
  hasSub (lowerChars term) (lowerChars text)

/-- A term none of whose characters is a LIKE wildcard or the escape
character. Lower-casing never produces these three characters, so the check
over the lower-cased term equals the check over the term itself. -/
def wildcardFree (t : String) : Bool :=
  (lowerChars t).all (fun c => !(c == '%') && !(c == '_') && !(c == '\\'))

/-- Outcome of the search view. `noResponse` models the Python view function
falling off the end of the `if` block and returning None, so no response body
is produced. -/
inductive SearchOutcome where
  | response (questions : List FormattedQuestion) (total : Nat)
  | noResponse
  | error (code : Nat)
deriving DecidableEq, Repr

/-- Number of questions carried by a search response, when there is one. -/
def SearchOutcome.questionsReturned : SearchOutcome → Option Nat
  | SearchOutcome.response l _ => some l.length
  | _ => none

/-- POST `/questions/search` (source function `questions_search`). The body is
`none` when the request JSON cannot be read (`data.get` raises and the bare
`except` aborts 422); `some none` when the JSON carries no searchTerm key; and
`some (some t)` when a term is present. A falsy term — absent key or empty
string — skips the `if search_term:` block entirely, so the view produces no
response. A truthy term filters all questions by the case-insensitive SQL LIKE
pattern built as the format string wraps the term in percent wildcards, and
paginates the matches with no request object, that is at page 1, while
reporting the unpaginated match count as the total. -/
def questions_search (qs : List Question) (body : Option (Option String)) :
    SearchOutcome :=
  match body with
  | none => SearchOutcome.error 422
  | some none => SearchOutcome.noResponse
  | some (some t) =>
    if t = "" then SearchOutcome.noResponse
    else
      let questions := qs.filter (fun q => ilike ("%" ++ t ++ "%") q.question)
      SearchOutcome.response (paginate_questions questions 1) questions.length

/-- GET `/categories/(id)/questions` (source function
`get_questions_by_category`): the questions of that category ordered by id,
paginated at the requested page. An empty page aborts 404 inside the `try`
block and the bare `except` converts it to 422; no check that the category id
exists is ever made. -/
def get_questions_by_category (qs : List Question) (cats : List Category)
    (category_id page : Nat) : Except Nat QuestionsResponse :=
  let questions := (sortById qs).filter (fun q => q.category == category_id)
  let formatted := paginate_questions questions page
  if formatted.length = 0 then Except.error 422
  else Except.ok ⟨formatted, questions.length, some category_id, catDict cats⟩

/-- Candidate pool for quiz selection: all questions when the sentinel
category id 0 is given, otherwise the questions of that category, in both
cases minus the previously seen question ids. -/
def quizCandidates (category_id : Nat) (previous_questions : List Nat)
    (qs : List Question) : List Question :=
  if category_id = 0 then
    qs.filter (fun q => !(previous_questions.contains q.id))
  else
    (qs.filter (fun q => q.category == category_id)).filter
      (fun q => !(previous_questions.contains q.id))

/-- POST `/quizzes` (source function `get_question_for_quiz`). A `none` quiz
category models a null or absent quiz_category value in the body: subscripting
it with the id key raises, and the bare `except` aborts 422. Otherwise the
candidate pool is computed; when it is nonempty the call
`random.randrange(0, available_questions)` draws an index in `[0, N)`, modelled
by the `draw` argument reduced modulo the pool size, and the question at that
index is returned formatted. An empty pool yields a successful response whose
question is null. -/
def get_question_for_quiz (qs : List Question) (previous_questions : List Nat)
    (quiz_category : Option Nat) (draw : Nat) :
    Except Nat (Option FormattedQuestion) :=
  match quiz_category with
  | none => Except.error 422
  | some c =>
    if h : 0 < (quizCandidates c previous_questions qs).length then
      Except.ok (some (Question.format ((quizCandidates c previous_questions qs).get
        ⟨draw % (quizCandidates c previous_questions qs).length, Nat.mod_lt draw h⟩)))
    else Except.ok none

/-- Sample rows used by witnesses and counterexamples. -/
def qA : Question := ⟨1, "What is it", "that", 2, 1⟩

/-- Second sample row. -/
def qB : Question := ⟨2, "Where is it", "there", 2, 3⟩

/-- Sample category row. -/
def catA : Category := ⟨2, "Science"⟩

/-- Eleven rows whose question text all contains the letter b. -/
def qs11 : List Question := (List.range 11).map (fun i => ⟨i, "abc", "x", 1, 1⟩)

/-- A row whose question text matches the wildcard term used against it
without containing that term as a substring. -/
def qW : Question := ⟨12, "a x b", "x", 1, 1⟩

/-- Concatenating the 10-item chunks of a list over pages 0, …, k-1 yields its
first k*c elements. -/
theorem flatten_chunks {α : Type} (l : List α) (c : Nat) :
    ∀ k : Nat,
      ((List.range k).map (fun i => (l.drop (i * c)).take c)).flatten = l.take (k * c)
  | 0 => by simp
  | k + 1 => by
    rw [List.range_succ, List.map_append, List.flatten_append, flatten_chunks l c k]
    simp [Nat.succ_mul, List.take_add]

/-- Sorting the store does not change its size. -/
theorem length_sortById (qs : List Question) : (sortById qs).length = qs.length :=
  (List.perm_insertionSort qle qs).length_eq

/-- The sorted formatted corpus has pairwise nondecreasing ids. -/
theorem sorted_formatted (qs : List Question) :
    List.Pairwise (fun a b => a.id ≤ b.id) ((sortById qs).map Question.format) :=
  List.Pairwise.map Question.format (fun _ _ h => h)
    (List.sorted_insertionSort qle qs)

/-- C1: for every page p ≥ 1, listing questions fetches the full collection
sorted by id ascending (a permutation of the store with pairwise nondecreasing
ids), returns exactly the formatted sub-slice from (p-1)*10 to (p-1)*10+10 —
hence at most 10 items, themselves ordered by id — and concatenating the pages
1, 2, …, k reconstructs the whole formatted ordered sequence as soon as 10*k
covers the corpus. -/
theorem listQuestions_pagination (qs : List Question) (p : Nat) (hp : 1 ≤ p) :
    (sortById qs).Perm qs
    ∧ List.Pairwise (fun a b => a.id ≤ b.id) ((sortById qs).map Question.format)
    ∧ paginate_questions (sortById qs) p
        = (((sortById qs).map Question.format).drop ((p - 1) * 10)).take 10
    ∧ (paginate_questions (sortById qs) p).length ≤ 10
    ∧ List.Pairwise (fun a b => a.id ≤ b.id) (paginate_questions (sortById qs) p)
    ∧ ∀ k : Nat, qs.length ≤ 10 * k →
        ((List.range k).map (fun i => paginate_questions (sortById qs) (i + 1))).flatten
          = (sortById qs).map Question.format := by
  refine ⟨List.perm_insertionSort qle qs, sorted_formatted qs, rfl, ?_, ?_, ?_⟩
  · simp only [paginate_questions, QUESTIONS_PER_PAGE, List.length_take]
    omega
  · exact (sorted_formatted qs).sublist
      ((List.take_sublist _ _).trans (List.drop_sublist _ _))
  · intro k hk
    have hlen : ((sortById qs).map Question.format).length ≤ k * 10 := by
      rw [List.length_map, length_sortById]
      omega
    exact (flatten_chunks ((sortById qs).map Question.format) 10 k).trans
      (List.take_of_length_le hlen)

/-- C1 witness: the pagination theorem instantiated at a concrete two-row
store and page 1. -/
theorem listQuestions_pagination_witness :
    (paginate_questions (sortById [qB, qA]) 1).length ≤ 10 :=
  (listQuestions_pagination [qB, qA] 1 (by decide)).2.2.2.1

/-- C6 counterexample: with one stored question, requesting page 2 makes the
endpoint fail with a 404 error instead of returning an empty sequence with the
corpus size. -/
theorem beyond_page_counterexample : get_questions [qA] [] 2 = Except.error 404 :=
  rfl

/-- C6 amended: for a page beyond the data size the pagination helper returns
an empty sequence without error, but the `/questions` endpoint maps the empty
page to a 404 error; whenever the endpoint does answer, the reported total is
the full corpus size, whatever page was requested. -/
theorem beyond_page_behavior (qs : List Question) (cats : List Category)
    (page : Nat) (h : qs.length ≤ (page - 1) * 10) :
    paginate_questions (sortById qs) page = []
    ∧ get_questions qs cats page = Except.error 404
    ∧ ∀ (qs2 : List Question) (cats2 : List Category) (p2 : Nat)
        (r : QuestionsResponse),
        get_questions qs2 cats2 p2 = Except.ok r → r.total_questions = qs2.length := by
  have hlen : ((sortById qs).map Question.format).length ≤ (page - 1) * 10 := by
    rw [List.length_map, length_sortById]
    exact h
  have hempty : paginate_questions (sortById qs) page = [] := by
    simp only [paginate_questions, QUESTIONS_PER_PAGE]
    rw [List.drop_eq_nil_of_le hlen]
    rfl
  refine ⟨hempty, ?_, ?_⟩
  · simp [get_questions, hempty]
  · intro qs2 cats2 p2 r hok
    by_cases hemp : (paginate_questions (sortById qs2) p2).length = 0
    · simp [get_questions, hemp] at hok
    · simp [get_questions, hemp] at hok
      rw [← hok]
      exact length_sortById qs2

/-- C6 witness: the amended theorem instantiated at one stored question and
page 2. -/
theorem beyond_page_behavior_witness : paginate_questions (sortById [qA]) 2 = [] :=
  (beyond_page_behavior [qA] [] 2 (by decide)).1

/-- C5 counterexample: with one stored question of category 2, listing the
questions of category 999 produces a 422 error rather than an empty result. -/
theorem category_no_match_counterexample :
    get_questions_by_category [qA] [catA] 999 1 = Except.error 422 :=
  rfl

/-- C5 amended: a category id matching no question — a nonexistent category
id included — makes the endpoint answer with a 422 error, not an empty
result: the empty page aborts 404 inside the try block and the bare except
converts it to 422. No category-existence validation is performed; the outcome
depends only on whether any question carries that category id. -/
theorem category_no_match_error (qs : List Question) (cats : List Category)
    (category_id page : Nat) (h : ∀ q ∈ qs, q.category ≠ category_id) :
    get_questions_by_category qs cats category_id page = Except.error 422 := by
  have hnil : (sortById qs).filter (fun q => q.category == category_id) = [] := by
    refine List.filter_eq_nil_iff.mpr ?_
    intro q hq
    have hmem : q ∈ qs := (List.perm_insertionSort qle qs).mem_iff.mp hq
    simpa using h q hmem
  simp [get_questions_by_category, hnil, paginate_questions]

/-- C5 witness: the amended theorem instantiated at one stored question of
category 2 and the unmatched category id 7. -/
theorem category_no_match_error_witness :
    get_questions_by_category [qA] [catA] 7 1 = Except.error 422 :=
  category_no_match_error [qA] [catA] 7 1 (by decide)

/-- The lone percent wildcard matches every character sequence. -/
theorem anySeq_matches (s : List Char) : likeMatch [LikeTok.anySeq] s = true := by
  show s.tails.any (fun suf => likeMatch [] suf) = true
  rw [List.any_eq_true]
  exact ⟨[], (List.mem_tails _ _).mpr List.nil_suffix, rfl⟩

/-- A literal sequence followed by the percent wildcard matches exactly the
character sequences it is a prefix of. -/
theorem litSeq_matches (cs : List Char) : ∀ s : List Char,
    likeMatch (cs.map LikeTok.lit ++ [LikeTok.anySeq]) s = cs.isPrefixOf s := by
  induction cs with
  | nil =>
    intro s
    show likeMatch ([] ++ [LikeTok.anySeq]) s = List.isPrefixOf [] s
    rw [List.nil_append, anySeq_matches s]
    cases s <;> rfl
  | cons c cs ih =>
    intro s
    cases s with
    | nil => rfl
    | cons d ds =>
      show (c == d && likeMatch (cs.map LikeTok.lit ++ [LikeTok.anySeq]) ds)
          = (c == d && cs.isPrefixOf ds)
      rw [ih ds]

/-- The substring test scans exactly the suffixes. -/
theorem hasSub_eq_tails (pat : List Char) : ∀ s : List Char,
    hasSub pat s = s.tails.any (fun suf => pat.isPrefixOf suf)
  | [] => by cases pat <;> rfl
  | c :: rest => by
    simp only [hasSub, hasSub_eq_tails pat rest, List.tails_cons, List.any_cons]

/-- Tokenizing a percent-wrapped sequence of plain characters gives the
percent wildcard, the characters as literals, and the percent wildcard. -/
theorem likeTokens_plain (cs : List Char)
    (h : ∀ c ∈ cs, ¬c = '%' ∧ ¬c = '_' ∧ ¬c = '\\') :
    likeTokens ('%' :: (cs ++ ['%']))
      = LikeTok.anySeq :: (cs.map LikeTok.lit ++ [LikeTok.anySeq]) := by
  have key : ∀ cs2 : List Char, (∀ c ∈ cs2, ¬c = '%' ∧ ¬c = '_' ∧ ¬c = '\\') →
      likeTokens (cs2 ++ ['%']) = cs2.map LikeTok.lit ++ [LikeTok.anySeq] := by
    intro cs2
    induction cs2 with
    | nil => intro _; rfl
    | cons c rest ih =>
      intro h2
      obtain ⟨hc1, hc2, hc3⟩ := h2 c (List.mem_cons_self c rest)
      have hr := ih (fun x hx => h2 x (List.mem_cons_of_mem c hx))
      simp [likeTokens, hc3, hc1, hc2, hr]
  rw [show likeTokens ('%' :: (cs ++ ['%']))
      = LikeTok.anySeq :: likeTokens (cs ++ ['%']) from rfl,
    key cs h]

/-- On terms free of wildcard and escape characters, the source's percent-wrapped
ilike pattern coincides with the case-insensitive substring predicate of the
spec. -/
theorem ilike_wildcard_free (t s : String) (h : wildcardFree t = true) :
    ilike ("%" ++ t ++ "%") s = specSubstringMatch t s := by
  have hchars : ∀ c ∈ lowerChars t, ¬c = '%' ∧ ¬c = '_' ∧ ¬c = '\\' := by
    intro c hc
    have hb := List.all_eq_true.mp h c hc
    simp at hb
    exact ⟨hb.1.1, hb.1.2, hb.2⟩
  have hpc : Char.toLower '%' = '%' := by decide
  have hlow : lowerChars ("%" ++ t ++ "%") = '%' :: (lowerChars t ++ ['%']) := by
    simp [lowerChars, String.toList, hpc]
  have step : likeMatch (likeTokens (lowerChars ("%" ++ t ++ "%"))) (lowerChars s)
      = hasSub (lowerChars t) (lowerChars s) := by
    rw [hlow, likeTokens_plain (lowerChars t) hchars]
    calc likeMatch
            (LikeTok.anySeq :: ((lowerChars t).map LikeTok.lit ++ [LikeTok.anySeq]))
            (lowerChars s)
        = (lowerChars s).tails.any
            (fun suf =>
              likeMatch ((lowerChars t).map LikeTok.lit ++ [LikeTok.anySeq]) suf) :=
          rfl
      _ = (lowerChars s).tails.any (fun suf => (lowerChars t).isPrefixOf suf) := by
          simp only [litSeq_matches]
      _ = hasSub (lowerChars t) (lowerChars s) :=
          (hasSub_eq_tails (lowerChars t) (lowerChars s)).symm
  exact step

/-- C2 counterexample: with eleven stored questions all containing the term b,
the search response carries only 10 questions while 11 match; and at the
wildcard term a percent b, the response contains — and totalQuestions counts —
a question whose text does not contain the term as a substring at all, because
ilike reads the percent as an SQL wildcard. -/
theorem search_claim_counterexample :
    ((qs11.filter (fun q => ilike ("%" ++ "b" ++ "%") q.question)).length = 11
      ∧ SearchOutcome.questionsReturned (questions_search qs11 (some (some "b")))
          = some 10)
    ∧ (questions_search [qW] (some (some "a%b"))
        = SearchOutcome.response [Question.format qW] 1
      ∧ specSubstringMatch "a%b" qW.question = false) :=
  ⟨⟨rfl, rfl⟩, rfl, rfl⟩

/-- C2 amended: for every non-empty search term, search filters the questions
by the case-insensitive SQL LIKE pattern that wraps the term in percent
wildcards — so percent and underscore inside the term act as wildcards and
backslash as the escape, while terms free of those characters match exactly by
case-insensitive substring containment — and pagination at the fixed page 1 is
applied to the result: only the first 10 matches are returned, the result
holding min 10 n of the n matches and all of them only when there are at most
10, while the reported total equals the full number of pattern matches. -/
theorem search_first_ten_matches (qs : List Question) (t : String) (h : t ≠ "") :
    questions_search qs (some (some t))
      = SearchOutcome.response
          (((qs.filter (fun q => ilike ("%" ++ t ++ "%") q.question)).map
              Question.format).take 10)
          (qs.filter (fun q => ilike ("%" ++ t ++ "%") q.question)).length
    ∧ (((qs.filter (fun q => ilike ("%" ++ t ++ "%") q.question)).map
          Question.format).take 10).length
        = min 10 (qs.filter (fun q => ilike ("%" ++ t ++ "%") q.question)).length
    ∧ ((qs.filter (fun q => ilike ("%" ++ t ++ "%") q.question)).length ≤ 10 →
        ((qs.filter (fun q => ilike ("%" ++ t ++ "%") q.question)).map
            Question.format).take 10
          = (qs.filter (fun q => ilike ("%" ++ t ++ "%") q.question)).map
              Question.format)
    ∧ (wildcardFree t = true →
        qs.filter (fun q => ilike ("%" ++ t ++ "%") q.question)
          = qs.filter (fun q => specSubstringMatch t q.question)) := by
  refine ⟨?_, ?_, ?_, ?_⟩
  · simp [questions_search, h, paginate_questions, QUESTIONS_PER_PAGE]
  · rw [List.length_take, List.length_map]
  · intro hle
    exact List.take_of_length_le (by rw [List.length_map]; exact hle)
  · intro hw
    exact List.filter_congr (fun q _ => ilike_wildcard_free t q.question hw)

/-- C2 witness: the amended theorem instantiated at the eleven matching rows
and the term b. -/
theorem search_first_ten_matches_witness :
    questions_search qs11 (some (some "b"))
      = SearchOutcome.response
          (((qs11.filter (fun q => ilike ("%" ++ "b" ++ "%") q.question)).map
              Question.format).take 10)
          (qs11.filter (fun q => ilike ("%" ++ "b" ++ "%") q.question)).length :=
  (search_first_ten_matches qs11 "b" (by decide)).1

/-- C7: on a readable request body whose search term is the empty string or
absent, the search view produces no response at all — it neither signals an
input error nor returns any question list; the view function falls off the end
of the if block. -/
theorem search_empty_term_no_response (qs : List Question) :
    questions_search qs (some (some "")) = SearchOutcome.noResponse
    ∧ questions_search qs (some none) = SearchOutcome.noResponse :=
  ⟨rfl, rfl⟩

/-- C9: deleting by an id carried by no stored question yields a 422 error
response, never a success: the missing row aborts 404 inside the try block and
the bare except reports 422 immediately. -/
theorem delete_nonexistent_error (qs : List Question) (question_id : Nat)
    (h : ∀ q ∈ qs, q.id ≠ question_id) :
    delete_question qs question_id = Except.error 422 := by
  have hf : qs.filter (fun q => q.id == question_id) = [] :=
    List.filter_eq_nil_iff.mpr (by intro q hq; simpa using h q hq)
  unfold delete_question
  rw [hf]

/-- C9 witness: the deletion theorem instantiated at one stored question of
id 1 and the absent id 99. -/
theorem delete_nonexistent_error_witness :
    delete_question [qA] 99 = Except.error 422 :=
  delete_nonexistent_error [qA] 99 (by decide)

/-- The quiz candidate pool is a sublist of the store. -/
theorem quizCandidates_sublist (c : Nat) (prev : List Nat) (qs : List Question) :
    List.Sublist (quizCandidates c prev qs) qs := by
  unfold quizCandidates
  split
  · exact List.filter_sublist qs
  · exact (List.filter_sublist _).trans (List.filter_sublist qs)

/-- Membership in the quiz candidate pool gives membership in the store, the
category constraint away from the sentinel, and exclusion of previous ids. -/
theorem mem_quizCandidates (c : Nat) (prev : List Nat) (qs : List Question)
    (q : Question) (hq : q ∈ quizCandidates c prev qs) :
    q ∈ qs ∧ (c ≠ 0 → q.category = c) ∧ q.id ∉ prev := by
  unfold quizCandidates at hq
  by_cases hc : c = 0
  · rw [if_pos hc] at hq
    rw [List.mem_filter] at hq
    refine ⟨hq.1, fun h0 => absurd hc h0, by simpa using hq.2⟩
  · rw [if_neg hc] at hq
    rw [List.mem_filter] at hq
    obtain ⟨hq1, hq2⟩ := hq
    rw [List.mem_filter] at hq1
    exact ⟨hq1.1, fun _ => by simpa using hq1.2, by simpa using hq2⟩

/-- Reduction of the quiz endpoint on a present category id. -/
theorem get_question_for_quiz_some (qs : List Question) (prev : List Nat)
    (c draw : Nat) :
    get_question_for_quiz qs prev (some c) draw
      = if h : 0 < (quizCandidates c prev qs).length then
          Except.ok (some (Question.format ((quizCandidates c prev qs).get
            ⟨draw % (quizCandidates c prev qs).length, Nat.mod_lt draw h⟩)))
        else Except.ok none :=
  rfl

/-- C3: whenever the quiz endpoint returns a question, that question comes
from the store, belongs to the requested category unless the sentinel 0 (any
category) was given, and its id is not among the excluded previous ids. -/
theorem quiz_question_in_scope (qs : List Question) (prev : List Nat)
    (c draw : Nat) (f : FormattedQuestion)
    (h : get_question_for_quiz qs prev (some c) draw = Except.ok (some f)) :
    f.id ∉ prev ∧ (c ≠ 0 → f.category = c) ∧ ∃ q ∈ qs, f = Question.format q := by
  rw [get_question_for_quiz_some] at h
  by_cases h0 : 0 < (quizCandidates c prev qs).length
  · rw [dif_pos h0] at h
    simp only [Except.ok.injEq, Option.some.injEq] at h
    obtain ⟨hmem, hcat, hid⟩ :=
      mem_quizCandidates c prev qs _ (List.get_mem (quizCandidates c prev qs) _ _)
    subst h
    exact ⟨by simpa [Question.format] using hid,
      fun hc => by simpa [Question.format] using hcat hc,
      ⟨_, hmem, rfl⟩⟩
  · rw [dif_neg h0] at h
    exact absurd h (by simp)

/-- C3 witness: the scope theorem instantiated at one stored question of
category 2 and id 1, excluded id 3 and draw 0. -/
theorem quiz_question_in_scope_witness :
    (Question.format qA).id ∉ [3]
    ∧ (2 ≠ 0 → (Question.format qA).category = 2)
    ∧ ∃ q ∈ [qA], Question.format qA = Question.format q :=
  quiz_question_in_scope [qA] [3] 2 0 (Question.format qA) rfl

/-- C4: when the stored questions carry pairwise distinct ids, the quiz
selection is a bijection between draws and candidates: every candidate is the
value of exactly one index of the pool, and the endpoint at draw i returns
precisely the formatted i-th candidate, so the uniform draw of randrange makes
every remaining candidate equally likely. -/
theorem quiz_selection_uniform (qs : List Question) (prev : List Nat) (c : Nat)
    (hnd : (qs.map Question.id).Nodup) :
    (∀ q ∈ quizCandidates c prev qs,
        ∃! i : Fin (quizCandidates c prev qs).length,
          (quizCandidates c prev qs).get i = q)
    ∧ ∀ i : Fin (quizCandidates c prev qs).length,
        get_question_for_quiz qs prev (some c) i.val
          = Except.ok (some (Question.format ((quizCandidates c prev qs).get i))) := by
  have hcn : (quizCandidates c prev qs).Nodup :=
    (List.Nodup.of_map Question.id hnd).sublist (quizCandidates_sublist c prev qs)
  constructor
  · intro q hq
    obtain ⟨i, hi⟩ := List.mem_iff_get.mp hq
    exact ⟨i, hi, fun j hj =>
      List.nodup_iff_injective_get.mp hcn (hj.trans hi.symm)⟩
  · intro i
    rw [get_question_for_quiz_some]
    have hfix : (⟨i.val % (quizCandidates c prev qs).length,
        Nat.mod_lt i.val i.pos⟩ : Fin (quizCandidates c prev qs).length) = i :=
      Fin.ext (Nat.mod_eq_of_lt i.isLt)
    rw [dif_pos i.pos, hfix]

/-- C4 witness: with two stored questions of distinct ids and nothing
excluded, the first stored question is selected by exactly one draw. -/
theorem quiz_selection_uniform_witness :
    ∃! i : Fin (quizCandidates 0 [] [qA, qB]).length,
      (quizCandidates 0 [] [qA, qB]).get i = qA :=
  (quiz_selection_uniform [qA, qB] [] 0 (by decide)).1 qA (by decide)

/-- C8: whenever category and exclusion filtering leave the candidate pool
empty, the quiz endpoint answers successfully with a null question, not an
error; in particular excluding every stored id under the any-category sentinel
yields the null question. -/
theorem quiz_empty_candidates_null (qs : List Question) (prev : List Nat)
    (c draw : Nat) (h : quizCandidates c prev qs = []) :
    get_question_for_quiz qs prev (some c) draw = Except.ok none
    ∧ ∀ (qs2 : List Question) (prev2 : List Nat) (d2 : Nat),
        (∀ q ∈ qs2, q.id ∈ prev2) →
        get_question_for_quiz qs2 prev2 (some 0) d2 = Except.ok none := by
  constructor
  · rw [get_question_for_quiz_some, dif_neg (by rw [h]; simp)]
  · intro qs2 prev2 d2 hall
    have hempty : quizCandidates 0 prev2 qs2 = [] := by
      unfold quizCandidates
      rw [if_pos rfl]
      exact List.filter_eq_nil_iff.mpr (by intro q hq; simpa using hall q hq)
    rw [get_question_for_quiz_some, dif_neg (by rw [hempty]; simp)]

/-- C8 witness: with one stored question of id 1 already excluded, the quiz
endpoint answers with a null question. -/
theorem quiz_empty_candidates_null_witness :
    get_question_for_quiz [qA] [1] (some 0) 0 = Except.ok none :=
  (quiz_empty_candidates_null [qA] [1] 0 0 rfl).1

/-- C10: a null or absent quiz category makes the endpoint fail with the
generic 422 error — the id lookup on the null value raises and the bare except
maps it to 422 — and it is the sentinel id 0, not the null value, that selects
from all categories, as the concrete any-category call shows. -/
theorem quiz_null_category_error :
    (∀ (qs : List Question) (prev : List Nat) (draw : Nat),
        get_question_for_quiz qs prev none draw = Except.error 422)
    ∧ get_question_for_quiz [qA] [] (some 0) 0
        = Except.ok (some (Question.format qA)) :=
  ⟨fun _ _ _ => rfl, rfl⟩

end Trivia
